import Mathlib

/-!
Shallow embedding of the iotcore Go package (Google Cloud IoT Core MQTT helper).

Modelling conventions:
- Time is explicit: every operation that calls time.Now takes a parameter
  now : Int holding Unix seconds, exactly the granularity the Go code uses
  (time.Now().Unix()).
- Key material is abstract: an EC private key is identified by a natural
  number keyId; its public key carries the same id, and an ECDSA signature
  verifies against a public key iff it was produced by the private key with
  the same id. PEM reading and parsing of the key file (ioutil.ReadFile at
  d.PrivKeyPath followed by jwt.ParseECPrivateKeyFromPEM) is modelled by an
  environment function keyAt from paths to Option ECPrivateKey: none means
  the read or the parse failed.
- A JWT compact serialization is a string; the string space is modelled by
  the inductive TokenStr, whose constructor jwt represents a structurally
  well-formed compact token (header algorithm, the StandardClaims fields the
  package ever sets, and the id of the key whose signature it carries) and
  whose constructor malformed represents every string that fails parsing.
  The compact serialization is injective, so equality of TokenStr values
  models equality of the Go token strings.
- The expiry and issued-at validation mirrors dgrijalva/jwt-go (MapClaims
  validation with required = false): a zero exp or iat claim is omitted from
  the serialized token (omitempty) and an absent claim passes validation;
  otherwise exp validates as now less-or-equal exp and iat as iat
  less-or-equal now.
- File I/O of the persistent credential cache is modelled by an explicit FS
  state: files maps paths to contents, and writeOK tells whether an
  ioutil.WriteFile call succeeds. Each provider returns the performed write
  events (path, content, permission bits) so theorems can speak about them.
- The paho.mqtt ClientOptions is modelled with the fields the package sets;
  a credentials provider value is identified by which of the three
  strategies options.go installs, together with its parameters.
-/

namespace IotCore

/-- Model of the fmt.Sprintf interpolation used by the package: every verb in
the format strings of iotcore is %v applied to a string (or, for the broker
port, to an integer already rendered with toString), so interpolation walks
the format and substitutes the next argument at each %v occurrence. -/
def sprintfAux : List Char → List String → List Char
  | '%' :: 'v' :: rest, a :: as => a.data ++ sprintfAux rest as
  | c :: rest, as => c :: sprintfAux rest as
  | [], _ => []

/-- Model of fmt.Sprintf restricted to %v verbs, as used throughout iotcore. -/
def sprintf (f : String) (args : List String) : String :=
  String.mk (sprintfAux f.data args)

/-- Abstract EC private key: jwt.ParseECPrivateKeyFromPEM output, identified
by an opaque id. -/
structure ECPrivateKey where
  keyId : Nat
deriving DecidableEq, Repr

/-- Abstract EC public key, as derived from a private key. -/
structure ECPublicKey where
  keyId : Nat
deriving DecidableEq, Repr

/-- Model of taking the PublicKey field of an ecdsa.PrivateKey. -/
def ECPrivateKey.publicKey (k : ECPrivateKey) : ECPublicKey :=
  ⟨k.keyId⟩

/-- Signing algorithm named in a JWT header. SigningMethodECDSA covers ES256,
ES384 and ES512; every other value fails the type assertion in the keyfunc of
VerifyJWT. -/
inductive SigAlg where
  | ES256
  | ES384
  | ES512
  | other (name : String)
deriving DecidableEq, Repr

/-- Model of the Go type assertion token.Method.(*jwt.SigningMethodECDSA). -/
def SigAlg.isECDSA : SigAlg → Bool
  | .ES256 => true
  | .ES384 => true
  | .ES512 => true
  | .other _ => false

/-- The jwt.StandardClaims fields that iotcore.NewJWT sets: Audience,
IssuedAt, ExpiresAt (Unix seconds). All other fields are left at their zero
value, which the omitempty JSON tags drop from the serialized token and which
claim validation then skips. -/
structure StandardClaims where
  audience : String
  issuedAt : Int
  expiresAt : Int
deriving DecidableEq, Repr

/-- Model of the space of Go strings fed to and produced by the JWT layer: a
string either parses as a compact JWT (carrying its header algorithm, its
claims, and the id of the key whose ECDSA signature it bears) or it is
malformed and jwt.Parse fails on it. Compact serialization is injective, so
TokenStr equality is Go string equality. -/
inductive TokenStr where
  | jwt (alg : SigAlg) (claims : StandardClaims) (sigKeyId : Nat)
  | malformed (s : String)
deriving DecidableEq, Repr

/-- Environment for key loading: keyAt models ioutil.ReadFile followed by
jwt.ParseECPrivateKeyFromPEM at a given path; none is a read or parse
failure. -/
structure Env where
  keyAt : String → Option ECPrivateKey

/-- Device mirrors the Go struct iotcore.Device, including the unexported
token field used as the in-memory JWT cache (zero value: the empty string,
a malformed token). The mutex tmu is not a value; it is modelled by the fact
that the cached provider is embedded as an atomic state transition. -/
structure Device where
  ProjectID : String
  RegistryID : String
  DeviceID : String
  PrivKeyPath : String
  Region : String
  token : TokenStr
deriving DecidableEq, Repr

/-- ClientID renders the fully-qualified Cloud IoT Core device id. -/
def Device.ClientID (d : Device) : String :=
  sprintf "projects/%v/locations/%v/registries/%v/devices/%v"
    [d.ProjectID, d.Region, d.RegistryID, d.DeviceID]

/-- ConfigTopic renders the configuration-updates subscription topic. -/
def Device.ConfigTopic (d : Device) : String :=
  sprintf "/devices/%v/config" [d.DeviceID]

/-- CommandTopic renders the commands subscription topic, ending in the
wildcard required by Cloud IoT Core. -/
def Device.CommandTopic (d : Device) : String :=
  sprintf "/devices/%v/commands/#" [d.DeviceID]

/-- TelemetryTopic renders the telemetry publish topic. -/
def Device.TelemetryTopic (d : Device) : String :=
  sprintf "/devices/%v/events" [d.DeviceID]

/-- StateTopic renders the state publish topic. -/
def Device.StateTopic (d : Device) : String :=
  sprintf "/devices/%v/state" [d.DeviceID]

/-- privateKey reads and parses the EC private key at d.PrivKeyPath. -/
def Device.privateKey (d : Device) (env : Env) : Except String ECPrivateKey :=
  match env.keyAt d.PrivKeyPath with
  | some k => .ok k
  | none => .error "iotcore: failed to read or parse the private key"

/-- publicKey derives the public key from the device private key,
propagating any load error. -/
def Device.publicKey (d : Device) (env : Env) : Except String ECPublicKey :=
  match d.privateKey env with
  | .ok k => .ok k.publicKey
  | .error e => .error e

/-- NewJWT creates a JWT signed with the device key: algorithm ES256, claims
Audience = ProjectID, IssuedAt = now, ExpiresAt = now + ttl (Unix seconds).
A key load failure is wrapped into an error and no token is produced. -/
def Device.NewJWT (d : Device) (env : Env) (now ttl : Int) : Except String TokenStr :=
  match d.privateKey env with
  | .error e => .error ("iotcore: failed to parse priv key: " ++ e)
  | .ok key =>
    .ok (.jwt .ES256 { audience := d.ProjectID, issuedAt := now, expiresAt := now + ttl } key.keyId)

/-- Model of jwt-go exp validation with required = false: a zero claim was
omitted from the token and passes; otherwise the token is unexpired iff now
is at most exp. -/
def verifyExp (exp now : Int) : Bool :=
  if exp = 0 then true else now ≤ exp

/-- Model of jwt-go iat validation with required = false: a zero claim was
omitted from the token and passes; otherwise the token passes iff iat is at
most now. -/
def verifyIat (iat now : Int) : Bool :=
  if iat = 0 then true else iat ≤ now

/-- VerifyJWT mirrors jwt.Parse with the iotcore keyfunc: a parse failure is
an error; a header algorithm outside the ECDSA family is an error raised by
the keyfunc; a public-key load failure is an error; otherwise the claims
(exp, iat) are validated against now and the ECDSA signature is checked
against the device public key, and the token is Valid exactly when all of
these pass, in which case the error is nil. -/
def Device.VerifyJWT (d : Device) (env : Env) (now : Int) (s : TokenStr) : Bool × Option String :=
  match s with
  | .malformed str => (false, some ("iotcore model: token parse failure on " ++ str))
  | .jwt alg claims sigKeyId =>
    if alg.isECDSA = false then
      (false, some "iotcore: unexpected signing method")
    else
      match d.publicKey env with
      | .error e => (false, some e)
      | .ok pub =>
        if verifyExp claims.expiresAt now && verifyIat claims.issuedAt now
            && (sigKeyId == pub.keyId) then
          (true, none)
        else
          (false, some "token validation failure")

/-- Username constant: Cloud IoT Core brokers ignore the MQTT username. -/
def username : String := "unused"

/-- Sentinel value substituted for the password when minting fails inside a
credentials provider; as a token string it is malformed, so authentication
with it fails cleanly. -/
def errJWT : TokenStr :=
  .malformed "error making new JWT"

/-- credentialsProvider: the no-caching strategy. Each invocation mints a
fresh JWT with the given ttl; on failure the sentinel invalid token is
returned in place of a token. Returns (username, password). -/
def Device.credentialsProvider (d : Device) (env : Env) (now ttl : Int) : String × TokenStr :=
  match d.NewJWT env now ttl with
  | .error _ => (username, errJWT)
  | .ok t => (username, t)

/-- Result of one invocation of the in-memory cached provider: the returned
credentials, the device state after the call (its token field is the cache),
and how many times NewJWT was invoked. -/
structure CachedResult where
  user : String
  password : TokenStr
  device : Device
  mints : Nat
deriving DecidableEq, Repr

/-- cachedCredentialsProvider: the in-memory caching strategy. The whole
verify-then-mint-then-store sequence runs under the device mutex, so it is
embedded as one atomic state transition on the device: if the cached token
verifies (true, nil) it is returned unchanged with no mint; otherwise a new
JWT is minted, and on success it is stored in the token field (overwriting
the previous value) and returned, while on failure the sentinel invalid
token is returned and the cache is left untouched. -/
def Device.cachedCredentialsProvider (d : Device) (env : Env) (now ttl : Int) : CachedResult :=
  let v := d.VerifyJWT env now d.token
  if v.1 && (v.2 == none) then
    ⟨username, d.token, d, 0⟩
  else
    match d.NewJWT env now ttl with
    | .error _ => ⟨username, errJWT, d, 1⟩
    | .ok t => ⟨username, t, { d with token := t }, 1⟩

/-- File-system state for the persistent cache: files maps a path to the
token string stored there (none: the file is absent or unreadable), and
writeOK tells whether an ioutil.WriteFile call succeeds. -/
structure FS where
  files : String → Option TokenStr
  writeOK : Bool

/-- Record of one ioutil.WriteFile call: path, contents, permission bits. -/
structure WriteEvent where
  path : String
  content : TokenStr
  perm : Nat
deriving DecidableEq, Repr

/-- Model of ioutil.WriteFile: on success the file at the path is replaced
wholesale by the new content (never appended); on failure the file system is
unchanged. -/
def FS.writeFile (fs : FS) (path : String) (content : TokenStr) : FS :=
  if fs.writeOK then
    { fs with files := fun p => if p = path then some content else fs.files p }
  else
    fs

/-- Result of one invocation of the persistent cached provider: the returned
credentials, the file-system state after the call, the write events
performed, and how many times NewJWT was invoked. -/
structure PersistResult where
  user : String
  password : TokenStr
  fs : FS
  writes : List WriteEvent
  mints : Nat

/-- Cache lookup step of the persistent provider: read the file at the path
and, if the read succeeds and the stored token verifies (true, nil), return
it; otherwise report a miss. -/
def Device.persistCacheLookup (d : Device) (env : Env) (now : Int) (path : String) (fs : FS) :
    Option TokenStr :=
  match fs.files path with
  | some cached =>
    let v := d.VerifyJWT env now cached
    if v.1 && (v.2 == none) then some cached else none
  | none => none

/-- persistentlyCachedCredentialsProvider: the durable caching strategy,
run as one atomic step under the device mutex. On a cache hit the stored
token is returned and nothing is written. On a miss a new JWT is minted; on
success it is written to the file with permission bits 0o600 (the write
error, if any, is swallowed) and returned; on mint failure the sentinel
invalid token is returned and no write is attempted. -/
def Device.persistentlyCachedCredentialsProvider (d : Device) (env : Env) (now ttl : Int)
    (path : String) (fs : FS) : PersistResult :=
  match d.persistCacheLookup env now path fs with
  | some cached => ⟨username, cached, fs, [], 0⟩
  | none =>
    match d.NewJWT env now ttl with
    | .error _ => ⟨username, errJWT, fs, [], 1⟩
    | .ok t => ⟨username, t, fs.writeFile path t, [⟨path, t, 0o600⟩], 1⟩

/-- MQTTBroker mirrors the Go struct: host and port of an MQTT server. -/
structure MQTTBroker where
  Host : String
  Port : Int
deriving DecidableEq, Repr

/-- URL renders the ssl scheme broker URL. -/
def MQTTBroker.URL (b : MQTTBroker) : String :=
  sprintf "ssl://%v:%v" [b.Host, toString b.Port]

/-- The slice of tls.Config that NewClient populates: the number of CA
certificates in the root pool, the minimum TLS version (771 is
tls.VersionTLS12), and the InsecureSkipVerify flag. -/
structure TLSConf where
  rootCertCount : Nat
  minVersion : Nat
  insecureSkipVerify : Bool
deriving DecidableEq, Repr

/-- Identifies which credentials provider closure options.go installed,
together with its parameters (ttl in seconds, and the cache path for the
durable strategy). -/
inductive CredentialsProviderSpec where
  | plain (ttl : Int)
  | cached (ttl : Int)
  | persistent (ttl : Int) (path : String)
deriving DecidableEq, Repr

/-- The slice of paho mqtt.ClientOptions that iotcore sets. -/
structure ClientOptions where
  brokers : List String
  clientID : String
  tls : Option TLSConf
  credentialsProvider : CredentialsProviderSpec
deriving DecidableEq, Repr

/-- A functional option passed to NewClient: it receives the device by value
and the options under construction, and returns the mutated options together
with an optional error (Go mutates through a pointer and returns error). -/
def ClientOption : Type :=
  Device → ClientOptions → ClientOptions × Option String

/-- Abstraction of the trust-bundle bytes: x509.CertPool.AppendCertsFromPEM
is external, so the byte stream is represented by the number of CA
certificates that call parses out of it (AppendCertsFromPEM returns false
iff that number is zero). -/
structure PemBytes where
  parsableCerts : Nat
deriving DecidableEq, Repr

/-- The mqtt.Client value NewClient builds, carrying its options. -/
structure MqttClient where
  opts : ClientOptions

/-- Option application loop of NewClient: each option is applied to the
result of the previous one, in the order given, and the first option that
returns a non-nil error aborts the loop with that error. -/
def applyClientOptions (d : Device) : ClientOptions → List ClientOption → Except String ClientOptions
  | opts, [] => .ok opts
  | opts, o :: rest =>
    match o d opts with
    | (_, some e) => .error e
    | (opts2, none) => applyClientOptions d opts2 rest

/-- The baseline ClientOptions NewClient constructs before applying the
option functions: the broker URL, the device client id, the TLS
configuration over the parsed cert pool with minimum version TLS 1.2, and
the no-caching credentials provider with a one-minute (60 second) ttl. -/
def defaultClientOptions (d : Device) (broker : MQTTBroker) (pem : PemBytes) : ClientOptions :=
  { brokers := [broker.URL]
    clientID := d.ClientID
    tls := some { rootCertCount := pem.parsableCerts, minVersion := 771, insecureSkipVerify := true }
    credentialsProvider := .plain 60 }

/-- NewClient: reads the CA certs (the caCerts parameter is the outcome of
ioutil.ReadAll on the reader), fails if reading failed or if zero
certificates parse from the bytes, then builds the baseline options and
applies the option functions in order, aborting on the first error; on
success the mqtt client is created from the final options. -/
def Device.NewClient (d : Device) (broker : MQTTBroker) (caCerts : Except String PemBytes)
    (options : List ClientOption) : Except String MqttClient :=
  match caCerts with
  | .error e => .error ("iotcore: failed to read CA certs: " ++ e)
  | .ok pem =>
    if pem.parsableCerts = 0 then
      .error "iotcore: no certs were parsed from given CA certs"
    else
      match applyClientOptions d (defaultClientOptions d broker pem) options with
      | .error e => .error e
      | .ok opts => .ok ⟨opts⟩

/-- JWTTTL option from options.go: installs the no-caching provider with the
given ttl. -/
def JWTTTL (ttl : Int) : ClientOption :=
  fun _ opts => ({ opts with credentialsProvider := .plain ttl }, none)

/-- CacheJWT option from options.go: installs the in-memory caching provider
with the given ttl. -/
def CacheJWT (ttl : Int) : ClientOption :=
  fun _ opts => ({ opts with credentialsProvider := .cached ttl }, none)

/-- PersistentlyCacheJWT option from options.go: installs the durable caching
provider with the given ttl and cache file path. -/
def PersistentlyCacheJWT (ttl : Int) (path : String) : ClientOption :=
  fun _ opts => ({ opts with credentialsProvider := .persistent ttl path }, none)

/-- Sequential execution of n invocations of the in-memory cached provider,
one per timestamp in the list, threading the device state: this is the
semantics of n concurrent calls serialized by the device mutex, each call
observing the clock at its own instant. Returns the final device, the list
of returned passwords, and the total number of mints. -/
def runCached (env : Env) (ttl : Int) : Device → List Int → Device × List TokenStr × Nat
  | d, [] => (d, [], 0)
  | d, t :: ts =>
    ((runCached env ttl (d.cachedCredentialsProvider env t ttl).device ts).1,
      (d.cachedCredentialsProvider env t ttl).password ::
        (runCached env ttl (d.cachedCredentialsProvider env t ttl).device ts).2.1,
      (d.cachedCredentialsProvider env t ttl).mints +
        (runCached env ttl (d.cachedCredentialsProvider env t ttl).device ts).2.2)

/-- Concrete environment fixture: one readable well-formed key at key.pem. -/
def envA : Env :=
  ⟨fun p => if p = "key.pem" then some ⟨7⟩ else none⟩

/-- Concrete environment fixture with no readable key anywhere. -/
def envNone : Env :=
  ⟨fun _ => none⟩

/-- Concrete device fixture, matching the repository test fixture, with an
empty (malformed) cached token. -/
def devA : Device :=
  { ProjectID := "myproject"
    RegistryID := "myregistery"
    DeviceID := "foo"
    PrivKeyPath := "key.pem"
    Region := "us-central1"
    token := .malformed "" }

/-- Concrete file-system fixture: empty, writes succeed. -/
def fsEmpty : FS :=
  ⟨fun _ => none, true⟩

/-- The token NewJWT produces when the key loads: ES256, audience the
project id, issued at now, expiring at now + ttl, signed with the key. -/
def mintedTok (d : Device) (k : ECPrivateKey) (now ttl : Int) : TokenStr :=
  .jwt .ES256 { audience := d.ProjectID, issuedAt := now, expiresAt := now + ttl } k.keyId

/-- Concrete broker fixture. -/
def brokerA : MQTTBroker :=
  ⟨"mqtt.googleapis.com", 8883⟩

/-- Concrete option fixture that always fails with a fixed error. -/
def failOpt : ClientOption :=
  fun _ opts => (opts, some "boom")

/-- Concrete token fixture: the token NewJWT mints on devA at Unix second
1000 with a zero ttl, so its exp claim equals its iat claim. -/
def tokZeroTTL : TokenStr :=
  mintedTok devA ⟨7⟩ 1000 0

/-! Helper lemmas shared by the claim theorems. -/

/-- NewJWT succeeds with the minted token exactly when the key loads. -/
theorem newJWT_ok {env : Env} {d : Device} {k : ECPrivateKey}
    (hk : env.keyAt d.PrivKeyPath = some k) (now ttl : Int) :
    d.NewJWT env now ttl = .ok (mintedTok d k now ttl) := by
  unfold Device.NewJWT Device.privateKey mintedTok
  rw [hk]

/-- NewJWT fails when the key does not load. -/
theorem newJWT_no_key {env : Env} {d : Device}
    (hk : env.keyAt d.PrivKeyPath = none) (now ttl : Int) :
    d.NewJWT env now ttl =
      .error ("iotcore: failed to parse priv key: "
        ++ "iotcore: failed to read or parse the private key") := by
  unfold Device.NewJWT Device.privateKey
  rw [hk]

/-- VerifyJWT returns either (true, none) or false together with an error. -/
theorem verifyJWT_cases (d : Device) (env : Env) (now : Int) (s : TokenStr) :
    d.VerifyJWT env now s = (true, none) ∨ ∃ e, d.VerifyJWT env now s = (false, some e) := by
  rcases s with ⟨alg, claims, kid⟩ | str
  · unfold Device.VerifyJWT
    dsimp only
    by_cases halg : alg.isECDSA = false
    · rw [if_pos halg]
      exact Or.inr ⟨_, rfl⟩
    · rw [if_neg halg]
      rcases h : d.publicKey env with e | pub
      · simp only [h]
        exact Or.inr ⟨_, rfl⟩
      · simp only [h]
        by_cases hc : (verifyExp claims.expiresAt now && verifyIat claims.issuedAt now
            && (kid == pub.keyId)) = true
        · rw [if_pos hc]
          exact Or.inl rfl
        · rw [if_neg hc]
          exact Or.inr ⟨_, rfl⟩
  · exact Or.inr ⟨_, rfl⟩

/-- When the key does not load, VerifyJWT rejects every token with an
error. -/
theorem verifyJWT_no_key {env : Env} {d : Device}
    (hk : env.keyAt d.PrivKeyPath = none) (now : Int) (s : TokenStr) :
    ∃ e, d.VerifyJWT env now s = (false, some e) := by
  rcases s with ⟨alg, claims, kid⟩ | str
  · unfold Device.VerifyJWT
    dsimp only
    by_cases halg : alg.isECDSA = false
    · rw [if_pos halg]
      exact ⟨_, rfl⟩
    · rw [if_neg halg]
      have hpk : d.publicKey env = .error "iotcore: failed to read or parse the private key" := by
        unfold Device.publicKey Device.privateKey
        rw [hk]
      simp only [hpk]
      exact ⟨_, rfl⟩
  · exact ⟨_, rfl⟩

/-- A freshly minted token verifies as (true, none) on the same device when
its claims pass exp and iat validation. -/
theorem verifyJWT_minted {env : Env} {d : Device} {k : ECPrivateKey}
    (hk : env.keyAt d.PrivKeyPath = some k) (mintT ttl vT : Int)
    (hexp : verifyExp (mintT + ttl) vT = true) (hiat : verifyIat mintT vT = true) :
    d.VerifyJWT env vT (mintedTok d k mintT ttl) = (true, none) := by
  have hpk : d.publicKey env = .ok k.publicKey := by
    unfold Device.publicKey Device.privateKey
    rw [hk]
  unfold Device.VerifyJWT mintedTok
  simp [hpk, SigAlg.isECDSA, ECPrivateKey.publicKey, hexp, hiat]

/-- The in-memory cached provider on a cache hit returns the cached token
unchanged with no mint. -/
theorem cachedProvider_hit {env : Env} {d : Device} {now : Int}
    (h : d.VerifyJWT env now d.token = (true, none)) (ttl : Int) :
    d.cachedCredentialsProvider env now ttl = ⟨username, d.token, d, 0⟩ := by
  unfold Device.cachedCredentialsProvider
  simp [h]

/-- The in-memory cached provider on a cache miss takes the mint branch. -/
theorem cachedProvider_miss {env : Env} {d : Device} {now : Int}
    (h : d.VerifyJWT env now d.token ≠ (true, none)) (ttl : Int) :
    d.cachedCredentialsProvider env now ttl =
      match d.NewJWT env now ttl with
      | .error _ => ⟨username, errJWT, d, 1⟩
      | .ok t => ⟨username, t, { d with token := t }, 1⟩ := by
  rcases verifyJWT_cases d env now d.token with hv | ⟨e, hv⟩
  · exact absurd hv h
  · unfold Device.cachedCredentialsProvider
    simp [hv]

/-- The durable cache lookup misses when the key does not load. -/
theorem persistLookup_no_key {env : Env} {d : Device}
    (hk : env.keyAt d.PrivKeyPath = none) (now : Int) (path : String) (fs : FS) :
    d.persistCacheLookup env now path fs = none := by
  unfold Device.persistCacheLookup
  cases h : fs.files path with
  | none => rfl
  | some cached =>
    obtain ⟨e, he⟩ := verifyJWT_no_key hk now cached
    simp [he]

/-- The user component of the no-caching provider is always the sentinel. -/
theorem credentialsProvider_user (d : Device) (env : Env) (now ttl : Int) :
    (d.credentialsProvider env now ttl).1 = username := by
  unfold Device.credentialsProvider
  cases h : d.NewJWT env now ttl <;> rfl

/-- The user component of the in-memory cached provider is always the
sentinel. -/
theorem cachedProvider_user (d : Device) (env : Env) (now ttl : Int) :
    (d.cachedCredentialsProvider env now ttl).user = username := by
  unfold Device.cachedCredentialsProvider
  dsimp only
  split
  · rfl
  · split <;> rfl

/-- The user component of the durable cached provider is always the
sentinel. -/
theorem persistProvider_user (d : Device) (env : Env) (now ttl : Int) (path : String) (fs : FS) :
    (d.persistentlyCachedCredentialsProvider env now ttl path fs).user = username := by
  unfold Device.persistentlyCachedCredentialsProvider
  split
  · rfl
  · split <;> rfl

/-- Unfolding lemma for one step of option application. -/
theorem applyClientOptions_cons (d : Device) (opts : ClientOptions) (o : ClientOption)
    (rest : List ClientOption) :
    applyClientOptions d opts (o :: rest) =
      (match o d opts with
      | (_, some e) => .error e
      | (opts2, none) => applyClientOptions d opts2 rest) := by
  rfl

/-- Option application distributes over list append: the first block of
options is applied first, and only if it all succeeds does the second block
run, starting from the state the first block produced. -/
theorem applyClientOptions_append (d : Device) (os1 os2 : List ClientOption) (opts : ClientOptions) :
    applyClientOptions d opts (os1 ++ os2) =
      (match applyClientOptions d opts os1 with
      | .ok m => applyClientOptions d m os2
      | .error e => .error e) := by
  induction os1 generalizing opts with
  | nil => rfl
  | cons o rest ih =>
    rw [List.cons_append, applyClientOptions_cons, applyClientOptions_cons]
    rcases h : o d opts with ⟨opts2, err⟩
    cases err with
    | none =>
      dsimp only
      exact ih opts2
    | some e => rfl

/-! Claim theorems. -/

/-- C1: for every device whose EC private key loads, a token produced by
NewJWT with positive ttl and passed to VerifyJWT on the same device returns
(true, nil) at any verification instant from the mint instant up to (but
before) the expiry instant mintT + ttl. -/
theorem newJWT_verifyJWT_roundtrip (env : Env) (d : Device) (k : ECPrivateKey)
    (hk : env.keyAt d.PrivKeyPath = some k) (ttl mintT vT : Int) (httl : 0 < ttl)
    (h1 : mintT ≤ vT) (h2 : vT < mintT + ttl) (tok : TokenStr)
    (hm : d.NewJWT env mintT ttl = .ok tok) :
    d.VerifyJWT env vT tok = (true, none) := by
  rw [newJWT_ok hk mintT ttl] at hm
  obtain rfl := Except.ok.inj hm
  apply verifyJWT_minted hk
  · unfold verifyExp
    split
    · rfl
    · simp only [decide_eq_true_eq]
      omega
  · unfold verifyIat
    split
    · rfl
    · simp only [decide_eq_true_eq]
      omega

/-- Witness for C1 at a concrete device, key, and clock. -/
theorem newJWT_verifyJWT_roundtrip_wit :
    devA.VerifyJWT envA 1030 (mintedTok devA ⟨7⟩ 1000 60) = (true, none) :=
  newJWT_verifyJWT_roundtrip envA devA ⟨7⟩ (by decide) 60 1000 1030 (by decide)
    (by decide) (by decide) (mintedTok devA ⟨7⟩ 1000 60) rfl

/-- Inversion for a successful public-key load: the key file held a key and
the public key is derived from it. -/
theorem publicKey_ok {env : Env} {d : Device} {pub : ECPublicKey}
    (h : d.publicKey env = .ok pub) :
    ∃ key, env.keyAt d.PrivKeyPath = some key ∧ pub = key.publicKey := by
  unfold Device.publicKey Device.privateKey at h
  cases hk : env.keyAt d.PrivKeyPath with
  | none =>
    rw [hk] at h
    exact absurd h (by simp)
  | some key =>
    rw [hk] at h
    exact ⟨key, rfl, (Except.ok.inj h).symm⟩

/-- Inversion for VerifyJWT returning true: the token is structurally
well-formed, its algorithm is in the ECDSA family, the device key loads, the
signature was made by that key, and the exp and iat claims validate. -/
theorem verifyJWT_true_inv {env : Env} {d : Device} {now : Int} {s : TokenStr}
    (h : (d.VerifyJWT env now s).1 = true) :
    ∃ alg claims kid key, s = .jwt alg claims kid ∧ alg.isECDSA = true ∧
      env.keyAt d.PrivKeyPath = some key ∧ kid = key.keyId ∧
      verifyExp claims.expiresAt now = true ∧ verifyIat claims.issuedAt now = true := by
  rcases s with ⟨alg, claims, kid⟩ | str
  · unfold Device.VerifyJWT at h
    dsimp only at h
    cases halg : alg.isECDSA with
    | false =>
      rw [if_pos (by rw [halg])] at h
      simp at h
    | true =>
      rw [if_neg (by rw [halg]; simp)] at h
      rcases hpk : d.publicKey env with e | pub
      · simp only [hpk] at h
        simp at h
      · simp only [hpk] at h
        by_cases hc : (verifyExp claims.expiresAt now && verifyIat claims.issuedAt now
            && (kid == pub.keyId)) = true
        · obtain ⟨key, hkey, hpubeq⟩ := publicKey_ok hpk
          obtain ⟨⟨hexp, hiat⟩, hbeq⟩ :
              (verifyExp claims.expiresAt now = true ∧ verifyIat claims.issuedAt now = true)
                ∧ (kid == pub.keyId) = true := by
            constructor
            · exact ⟨by simpa using (Bool.and_eq_true_iff.mp (Bool.and_eq_true_iff.mp hc).1).1,
                by simpa using (Bool.and_eq_true_iff.mp (Bool.and_eq_true_iff.mp hc).1).2⟩
            · exact (Bool.and_eq_true_iff.mp hc).2
          refine ⟨alg, claims, kid, key, rfl, halg, hkey, ?_, hexp, hiat⟩
          have hkid : kid = pub.keyId := by simpa using hbeq
          rw [hkid, hpubeq]
          rfl
        · rw [if_neg hc] at h
          simp at h
  · unfold Device.VerifyJWT at h
    simp at h

/-- A structurally well-formed token whose nonzero expiry lies strictly in
the past is rejected with a false result and a non-nil error. -/
theorem verifyJWT_expired {env : Env} {d : Device} {now : Int}
    (alg : SigAlg) (claims : StandardClaims) (kid : Nat)
    (hne : claims.expiresAt ≠ 0) (hlt : claims.expiresAt < now) :
    (d.VerifyJWT env now (.jwt alg claims kid)).1 = false ∧
    (d.VerifyJWT env now (.jwt alg claims kid)).2 ≠ none := by
  have hexp : verifyExp claims.expiresAt now = false := by
    unfold verifyExp
    rw [if_neg hne]
    simp only [decide_eq_false_iff_not]
    omega
  unfold Device.VerifyJWT
  dsimp only
  by_cases halg : alg.isECDSA = false
  · rw [if_pos halg]
    exact ⟨rfl, by simp⟩
  · rw [if_neg halg]
    rcases hpk : d.publicKey env with e | pub
    · simp [hpk]
    · simp only [hpk]
      rw [hexp]
      simp

/-- A token minted on this device fails verification on the same device when
its exp claim fails validation. -/
theorem verifyJWT_minted_expired {env : Env} {d : Device} {k : ECPrivateKey}
    (hk : env.keyAt d.PrivKeyPath = some k) (mintT ttl vT : Int)
    (hexp : verifyExp (mintT + ttl) vT = false) :
    d.VerifyJWT env vT (mintedTok d k mintT ttl) = (false, some "token validation failure") := by
  have hpk : d.publicKey env = .ok k.publicKey := by
    unfold Device.publicKey Device.privateKey
    rw [hk]
  unfold Device.VerifyJWT mintedTok
  simp [hpk, SigAlg.isECDSA, hexp]

/-- Sequential cached-provider runs are all cache hits when the device cache
holds a token signed with the loading key whose claims validate at every
instant of the run: nothing is minted and every call returns the cached
token. -/
theorem runCached_hits (env : Env) (ttl : Int) (d : Device) (k : ECPrivateKey)
    (c : StandardClaims) (ts : List Int)
    (hk : env.keyAt d.PrivKeyPath = some k)
    (hd : d.token = .jwt .ES256 c k.keyId)
    (hts : ∀ t ∈ ts, verifyExp c.expiresAt t = true ∧ verifyIat c.issuedAt t = true) :
    runCached env ttl d ts = (d, List.replicate ts.length d.token, 0) := by
  induction ts with
  | nil => rfl
  | cons t ts ih =>
    have hpk : d.publicKey env = .ok k.publicKey := by
      unfold Device.publicKey Device.privateKey
      rw [hk]
    have hv : d.VerifyJWT env t d.token = (true, none) := by
      rw [hd]
      unfold Device.VerifyJWT
      simp [hpk, SigAlg.isECDSA, ECPrivateKey.publicKey,
        (hts t (List.mem_cons_self t ts)).1, (hts t (List.mem_cons_self t ts)).2]
    have hcall := cachedProvider_hit hv ttl
    rw [runCached, hcall]
    dsimp only
    rw [ih (fun u hu => hts u (List.mem_cons_of_mem t hu))]
    rfl

/-- C8: ClientID is exactly the projects/locations/registries/devices
concatenation in that order with no omission, and CommandTopic is exactly
the /devices/{device}/commands/# string, which therefore always ends in the
wildcard suffix regardless of the device id. -/
theorem clientID_format_and_commandTopic_wildcard (d : Device) :
    d.ClientID = "projects/" ++ d.ProjectID ++ "/locations/" ++ d.Region ++ "/registries/"
        ++ d.RegistryID ++ "/devices/" ++ d.DeviceID ∧
    d.CommandTopic = "/devices/" ++ d.DeviceID ++ "/commands/#" ∧
    ∃ s, d.CommandTopic = s ++ "/#" := by
  refine ⟨?_, ?_, ?_⟩
  · apply String.ext
    simp [Device.ClientID, sprintf, sprintfAux, String.data_append]
  · apply String.ext
    simp [Device.CommandTopic, sprintf, sprintfAux, String.data_append]
  · refine ⟨"/devices/" ++ d.DeviceID ++ "/commands", ?_⟩
    apply String.ext
    simp [Device.CommandTopic, sprintf, sprintfAux, String.data_append]

/-- C5 counterexample: a token minted with zero ttl and verified at the same
Unix second yields (true, nil), not (false, error): the exp check of jwt-go
accepts now equal to exp, so such a token does not count as expired. -/
theorem verifyJWT_zero_ttl_counterexample :
    devA.NewJWT envA 1000 0 = .ok tokZeroTTL ∧
    devA.VerifyJWT envA 1000 tokZeroTTL = (true, none) :=
  ⟨rfl, by decide⟩

/-- C5 (amended): VerifyJWT returns true only for a structurally valid,
ECDSA-signed, correctly signed token whose exp and iat claims validate at
the current instant; it never returns true alongside a non-nil error, and
false always comes with a non-nil error; and a token whose nonzero expiry
lies strictly in the past (for example one minted with negative ttl, or with
zero ttl once the clock has advanced to a later second) yields (false,
error). -/
theorem verifyJWT_soundness (env : Env) (d : Device) (now : Int) (s : TokenStr) :
    ((d.VerifyJWT env now s).1 = true ↔ (d.VerifyJWT env now s).2 = none) ∧
    ((d.VerifyJWT env now s).1 = true →
      ∃ alg claims kid key, s = .jwt alg claims kid ∧ alg.isECDSA = true ∧
        env.keyAt d.PrivKeyPath = some key ∧ kid = key.keyId ∧
        verifyExp claims.expiresAt now = true ∧ verifyIat claims.issuedAt now = true) ∧
    (∀ alg claims kid, s = .jwt alg claims kid → claims.expiresAt ≠ 0 →
      claims.expiresAt < now →
      (d.VerifyJWT env now s).1 = false ∧ (d.VerifyJWT env now s).2 ≠ none) := by
  refine ⟨?_, fun h => verifyJWT_true_inv h, ?_⟩
  · rcases verifyJWT_cases d env now s with h | ⟨e, h⟩ <;> rw [h] <;> simp
  · intro alg claims kid hs hne hlt
    subst hs
    exact verifyJWT_expired alg claims kid hne hlt

/-- Witness for the amended C5 at a concrete expired token. -/
theorem verifyJWT_soundness_wit :
    (devA.VerifyJWT envA 2000 (mintedTok devA ⟨7⟩ 1000 60)).1 = false ∧
    (devA.VerifyJWT envA 2000 (mintedTok devA ⟨7⟩ 1000 60)).2 ≠ none :=
  (verifyJWT_soundness envA devA 2000 (mintedTok devA ⟨7⟩ 1000 60)).2.2
    .ES256 ⟨"myproject", 1000, 1060⟩ 7 rfl (by decide) (by decide)

/-- C3: every credential-supply function returns the fixed sentinel
username, and when minting fails (the key does not load) each function still
returns normally with the deliberately invalid token string in place of a
token. -/
theorem providers_username_and_sentinel (env : Env) (d : Device) (now ttl : Int)
    (path : String) (fs : FS) :
    (d.credentialsProvider env now ttl).1 = username ∧
    (d.cachedCredentialsProvider env now ttl).user = username ∧
    (d.persistentlyCachedCredentialsProvider env now ttl path fs).user = username ∧
    (env.keyAt d.PrivKeyPath = none →
      (d.credentialsProvider env now ttl).2 = errJWT ∧
      (d.cachedCredentialsProvider env now ttl).password = errJWT ∧
      (d.persistentlyCachedCredentialsProvider env now ttl path fs).password = errJWT) := by
  refine ⟨credentialsProvider_user d env now ttl, cachedProvider_user d env now ttl,
    persistProvider_user d env now ttl path fs, ?_⟩
  intro hk
  refine ⟨?_, ?_, ?_⟩
  · unfold Device.credentialsProvider
    rw [newJWT_no_key hk now ttl]
  · obtain ⟨e, hv⟩ := verifyJWT_no_key hk now d.token
    rw [cachedProvider_miss (by simp [hv]) ttl, newJWT_no_key hk now ttl]
  · unfold Device.persistentlyCachedCredentialsProvider
    rw [persistLookup_no_key hk now path fs, newJWT_no_key hk now ttl]

/-- Witness for C3 with a key that never loads. -/
theorem providers_username_and_sentinel_wit :
    (devA.credentialsProvider envNone 1000 60).2 = errJWT :=
  ((providers_username_and_sentinel envNone devA 1000 60 "jwt.txt" fsEmpty).2.2.2 rfl).1

/-- C10: when minting fails, both caching providers return the sentinel
invalid token, the in-memory cache field is left unchanged, and no file
write happens, so the caches only ever hold successfully minted tokens. -/
theorem mint_failure_leaves_caches_unchanged (env : Env) (d : Device) (now ttl : Int)
    (path : String) (fs : FS) (hk : env.keyAt d.PrivKeyPath = none) :
    d.cachedCredentialsProvider env now ttl = ⟨username, errJWT, d, 1⟩ ∧
    d.persistentlyCachedCredentialsProvider env now ttl path fs =
      ⟨username, errJWT, fs, [], 1⟩ := by
  constructor
  · obtain ⟨e, hv⟩ := verifyJWT_no_key hk now d.token
    rw [cachedProvider_miss (by simp [hv]) ttl, newJWT_no_key hk now ttl]
  · unfold Device.persistentlyCachedCredentialsProvider
    rw [persistLookup_no_key hk now path fs, newJWT_no_key hk now ttl]

/-- Witness for C10 with a key that never loads. -/
theorem mint_failure_leaves_caches_unchanged_wit :
    devA.cachedCredentialsProvider envNone 1000 60 = ⟨username, errJWT, devA, 1⟩ :=
  (mint_failure_leaves_caches_unchanged envNone devA 1000 60 "jwt.txt" fsEmpty rfl).1

/-- C4: on a cache miss of the durable provider with a successful mint, the
token is written to the configured file with permission bits 0o600, the file
content is replaced wholesale (all other paths untouched), and the freshly
minted token is returned whether or not the write succeeds: a failed write
leaves the file system unchanged but not the returned value. -/
theorem persistent_miss_mint_success (env : Env) (d : Device) (now ttl : Int)
    (path : String) (fs : FS) (tok : TokenStr)
    (hmiss : d.persistCacheLookup env now path fs = none)
    (hm : d.NewJWT env now ttl = .ok tok) :
    (d.persistentlyCachedCredentialsProvider env now ttl path fs).password = tok ∧
    (d.persistentlyCachedCredentialsProvider env now ttl path fs).writes
      = [⟨path, tok, 0o600⟩] ∧
    (fs.writeOK = true →
      (d.persistentlyCachedCredentialsProvider env now ttl path fs).fs.files path = some tok ∧
      ∀ p, p ≠ path →
        (d.persistentlyCachedCredentialsProvider env now ttl path fs).fs.files p = fs.files p) ∧
    (fs.writeOK = false →
      (d.persistentlyCachedCredentialsProvider env now ttl path fs).fs = fs) := by
  have hres : d.persistentlyCachedCredentialsProvider env now ttl path fs =
      ⟨username, tok, fs.writeFile path tok, [⟨path, tok, 0o600⟩], 1⟩ := by
    unfold Device.persistentlyCachedCredentialsProvider
    rw [hmiss, hm]
  rw [hres]
  refine ⟨rfl, rfl, ?_, ?_⟩
  · intro hw
    unfold FS.writeFile
    rw [if_pos hw]
    exact ⟨by simp, fun p hp => by simp [hp]⟩
  · intro hw
    unfold FS.writeFile
    rw [if_neg (by simp [hw])]

/-- Witness for C4 on an empty file system with a loading key. -/
theorem persistent_miss_mint_success_wit :
    (devA.persistentlyCachedCredentialsProvider envA 1000 60 "jwt.txt" fsEmpty).password
      = mintedTok devA ⟨7⟩ 1000 60 :=
  (persistent_miss_mint_success envA devA 1000 60 "jwt.txt" fsEmpty
    (mintedTok devA ⟨7⟩ 1000 60) rfl rfl).1

/-- C2: the in-memory cached provider reuses a cached token that verifies
(true, nil) unchanged with no mint; on a miss it mints, stores the new token
in the cache field and returns it; hence a second call within the ttl window
returns the identical token with no second mint, and a call after expiry
mints and returns a different token. -/
theorem cached_provider_reuse_and_remint (env : Env) (d : Device) (k : ECPrivateKey)
    (hk : env.keyAt d.PrivKeyPath = some k) (ttl t1 t2 t3 : Int)
    (httl : 0 < ttl) (ht1 : 0 < t1)
    (hmiss : d.VerifyJWT env t1 d.token ≠ (true, none))
    (h12 : t1 ≤ t2) (h2w : t2 ≤ t1 + ttl) (h3 : t1 + ttl < t3) :
    (∀ d2 now2, Device.VerifyJWT d2 env now2 d2.token = (true, none) →
      Device.cachedCredentialsProvider d2 env now2 ttl = ⟨username, d2.token, d2, 0⟩) ∧
    d.cachedCredentialsProvider env t1 ttl =
      ⟨username, mintedTok d k t1 ttl, { d with token := mintedTok d k t1 ttl }, 1⟩ ∧
    Device.cachedCredentialsProvider { d with token := mintedTok d k t1 ttl } env t2 ttl =
      ⟨username, mintedTok d k t1 ttl, { d with token := mintedTok d k t1 ttl }, 0⟩ ∧
    (Device.cachedCredentialsProvider { d with token := mintedTok d k t1 ttl } env t3 ttl).password
      ≠ mintedTok d k t1 ttl ∧
    (Device.cachedCredentialsProvider { d with token := mintedTok d k t1 ttl } env t3 ttl).mints
      = 1 := by
  have hk2 : env.keyAt (Device.PrivKeyPath { d with token := mintedTok d k t1 ttl }) = some k := hk
  have hhit : Device.VerifyJWT { d with token := mintedTok d k t1 ttl } env t2
      (Device.token { d with token := mintedTok d k t1 ttl }) = (true, none) := by
    have := verifyJWT_minted (d := { d with token := mintedTok d k t1 ttl }) hk2 t1 ttl t2
      (by unfold verifyExp
          split
          · rfl
          · simp only [decide_eq_true_eq]
            omega)
      (by unfold verifyIat
          split
          · rfl
          · simp only [decide_eq_true_eq]
            omega)
    exact this
  have hexp3 : verifyExp (t1 + ttl) t3 = false := by
    unfold verifyExp
    rw [if_neg (by omega)]
    simp only [decide_eq_false_iff_not]
    omega
  have hmiss3 : Device.VerifyJWT { d with token := mintedTok d k t1 ttl } env t3
      (Device.token { d with token := mintedTok d k t1 ttl }) ≠ (true, none) := by
    intro hcontr
    have h2 : Device.VerifyJWT { d with token := mintedTok d k t1 ttl } env t3
        (mintedTok { d with token := mintedTok d k t1 ttl } k t1 ttl) = (true, none) := hcontr
    rw [verifyJWT_minted_expired hk2 t1 ttl t3 hexp3] at h2
    simp at h2
  have hcall3 : Device.cachedCredentialsProvider { d with token := mintedTok d k t1 ttl } env t3 ttl
      = ⟨username, mintedTok d k t3 ttl,
          { d with token := mintedTok d k t3 ttl }, 1⟩ := by
    rw [cachedProvider_miss hmiss3 ttl, newJWT_ok hk2 t3 ttl]
    rfl
  refine ⟨fun d2 now2 h => cachedProvider_hit h ttl, ?_, ?_, ?_, ?_⟩
  · rw [cachedProvider_miss hmiss ttl, newJWT_ok hk t1 ttl]
  · exact cachedProvider_hit hhit ttl
  · rw [hcall3]
    dsimp only
    unfold mintedTok
    simp only [TokenStr.jwt.injEq, StandardClaims.mk.injEq, ne_eq]
    intro h
    omega
  · rw [hcall3]

/-- Witness for C2 at a concrete device, key and clock. -/
theorem cached_provider_reuse_and_remint_wit :
    devA.cachedCredentialsProvider envA 1000 60 =
      ⟨username, mintedTok devA ⟨7⟩ 1000 60,
        { devA with token := mintedTok devA ⟨7⟩ 1000 60 }, 1⟩ :=
  (cached_provider_reuse_and_remint envA devA ⟨7⟩ (by decide) 60 1000 1030 2000
    (by decide) (by decide) (by decide) (by decide) (by decide) (by decide)).2.1

/-- C9: any number of cached-provider calls serialized by the device mutex,
all racing on an empty cache and all falling inside the validity window of
the token the first call mints, produce exactly one mint in total and all
return that same token. -/
theorem cached_concurrent_single_mint (env : Env) (d : Device) (k : ECPrivateKey)
    (hk : env.keyAt d.PrivKeyPath = some k) (ttl t0 : Int) (ts : List Int)
    (hempty : d.token = .malformed "")
    (hin : ∀ t ∈ ts, t0 ≤ t ∧ t ≤ t0 + ttl) :
    (runCached env ttl d (t0 :: ts)).2.2 = 1 ∧
    ∀ tok ∈ (runCached env ttl d (t0 :: ts)).2.1, tok = mintedTok d k t0 ttl := by
  have hmiss : d.VerifyJWT env t0 d.token ≠ (true, none) := by
    rw [hempty]
    unfold Device.VerifyJWT
    simp
  have hcall1 : d.cachedCredentialsProvider env t0 ttl =
      ⟨username, mintedTok d k t0 ttl, { d with token := mintedTok d k t0 ttl }, 1⟩ := by
    rw [cachedProvider_miss hmiss ttl, newJWT_ok hk t0 ttl]
  have hrest : runCached env ttl { d with token := mintedTok d k t0 ttl } ts =
      ({ d with token := mintedTok d k t0 ttl },
        List.replicate ts.length (mintedTok d k t0 ttl), 0) := by
    have hk2 : env.keyAt (Device.PrivKeyPath { d with token := mintedTok d k t0 ttl }) = some k := hk
    apply runCached_hits env ttl { d with token := mintedTok d k t0 ttl } k
      ⟨d.ProjectID, t0, t0 + ttl⟩ ts hk2 rfl
    intro t ht
    constructor
    · unfold verifyExp
      split
      · rfl
      · simp only [decide_eq_true_eq]
        exact (hin t ht).2
    · unfold verifyIat
      split
      · rfl
      · simp only [decide_eq_true_eq]
        exact (hin t ht).1
  have hmain : runCached env ttl d (t0 :: ts) =
      ({ d with token := mintedTok d k t0 ttl },
        mintedTok d k t0 ttl :: List.replicate ts.length (mintedTok d k t0 ttl), 1 + 0) := by
    rw [runCached, hcall1]
    dsimp only
    rw [hrest]
  rw [hmain]
  refine ⟨rfl, ?_⟩
  intro tok htok
  rcases List.mem_cons.mp htok with h | h
  · exact h
  · exact List.eq_of_mem_replicate h

/-- Witness for C9 with three serialized calls inside the window. -/
theorem cached_concurrent_single_mint_wit :
    (runCached envA 60 devA [1000, 1010, 1030]).2.2 = 1 :=
  (cached_concurrent_single_mint envA devA ⟨7⟩ (by decide) 60 1000 [1010, 1030]
    rfl (by decide)).1

/-- C6: NewClient fails with an error and returns no client whenever zero
certificates parse from the trust-bundle bytes; with at least one parsed
certificate, construction proceeds to option application over the baseline
configuration. -/
theorem newClient_requires_parsed_certs (d : Device) (broker : MQTTBroker) (pem : PemBytes)
    (options : List ClientOption) :
    (pem.parsableCerts = 0 →
      d.NewClient broker (.ok pem) options =
        .error "iotcore: no certs were parsed from given CA certs") ∧
    (pem.parsableCerts ≠ 0 →
      d.NewClient broker (.ok pem) options =
        Except.map MqttClient.mk
          (applyClientOptions d (defaultClientOptions d broker pem) options)) := by
  constructor
  · intro h
    unfold Device.NewClient
    dsimp only
    rw [if_pos h]
  · intro h
    unfold Device.NewClient
    dsimp only
    rw [if_neg h]
    cases happ : applyClientOptions d (defaultClientOptions d broker pem) options with
    | error e => simp [happ, Except.map]
    | ok o => simp [happ, Except.map]

/-- Witness for C6 with a trust bundle from which nothing parses. -/
theorem newClient_requires_parsed_certs_wit :
    devA.NewClient brokerA (.ok ⟨0⟩) [] =
      .error "iotcore: no certs were parsed from given CA certs" :=
  (newClient_requires_parsed_certs devA brokerA ⟨0⟩ []).1 rfl

/-- C7: NewClient applies the options in the order given (application over
an appended list runs the first block first and feeds its result to the
second), and the first option returning an error aborts the build with that
error unchanged, with no later option applied and no client created. -/
theorem newClient_option_order_and_short_circuit (d : Device) (broker : MQTTBroker)
    (pem : PemBytes) (pre post : List ClientOption) (o : ClientOption)
    (s2 s3 : ClientOptions) (e : String)
    (hp : pem.parsableCerts ≠ 0)
    (hpre : applyClientOptions d (defaultClientOptions d broker pem) pre = .ok s2)
    (ho : o d s2 = (s3, some e)) :
    (∀ opts os1 os2, applyClientOptions d opts (os1 ++ os2) =
      (match applyClientOptions d opts os1 with
      | .ok m => applyClientOptions d m os2
      | .error err => .error err)) ∧
    d.NewClient broker (.ok pem) (pre ++ o :: post) = .error e ∧
    (∀ post2, d.NewClient broker (.ok pem) (pre ++ o :: post2) = .error e) := by
  have hstep : ∀ post2, applyClientOptions d (defaultClientOptions d broker pem)
      (pre ++ o :: post2) = .error e := by
    intro post2
    rw [applyClientOptions_append, hpre]
    dsimp only
    rw [applyClientOptions_cons, ho]
  refine ⟨fun opts os1 os2 => applyClientOptions_append d os1 os2 opts, ?_, ?_⟩
  · unfold Device.NewClient
    dsimp only
    rw [if_neg hp, hstep post]
  · intro post2
    unfold Device.NewClient
    dsimp only
    rw [if_neg hp, hstep post2]

/-- Witness for C7 with a concrete failing option. -/
theorem newClient_option_order_and_short_circuit_wit :
    devA.NewClient brokerA (.ok ⟨1⟩) ([] ++ failOpt :: []) = .error "boom" :=
  (newClient_option_order_and_short_circuit devA brokerA ⟨1⟩ [] [] failOpt
    (defaultClientOptions devA brokerA ⟨1⟩) (defaultClientOptions devA brokerA ⟨1⟩) "boom"
    (by decide) rfl rfl).2.1

end IotCore
